import Mathlib

/-!
Shallow embedding of the list-storage core of the telegram-list-bot
repository (src/list_manager.py with src/config.py and src/exceptions.py),
and theorems checking the specification's claims against it.

The in-memory collection `self.lists : Dict[str, List[str]]` is modelled as
an association list in insertion order (Python dicts preserve insertion
order and have unique keys).  Persistence is modelled by a boolean
`saveOk` environment flag: `_save_data` either succeeds or raises
`DataStorageError`, and each operation returns the collection after the
call together with the string handed back to the caller.
-/

namespace ListBot

/-- The collection type: list name to ordered items, in insertion order. -/
abbrev Lists := List (String × List String)

/-- src/config.py `BotConfig` (the dataclass defaults). -/
structure Config where
  data_file : String := "lists_data.json"
  max_list_name_length : Nat := 50
  max_item_length : Nat := 200
  max_lists_per_user : Nat := 50
  max_items_per_list : Nat := 100
  backup_enabled : Bool := true

/-- The default `BotConfig()`. -/
def defaultConfig : Config := {}

/-- src/exceptions.py: the exception classes raised by the core. -/
inductive BotError where
  | validation (msg : String)
  | listNotFound (msg : String)
  | listExists (msg : String)
  | itemNotFound (msg : String)
  | itemExists (msg : String)
  | limitExceeded (msg : String)
  | dataStorage (msg : String)
deriving DecidableEq

deriving instance DecidableEq for Except

/-- src/config.py `Messages.LIST_CREATED`. -/
def Messages.LIST_CREATED (name : String) : String :=
  "✅ Created list '" ++ name ++ "'"

/-- src/config.py `Messages.LIST_EXISTS`. -/
def Messages.LIST_EXISTS (name : String) : String :=
  "❌ List '" ++ name ++ "' already exists!"

/-- src/config.py `Messages.LIST_NOT_FOUND`. -/
def Messages.LIST_NOT_FOUND (name : String) : String :=
  "❌ List '" ++ name ++ "' not found!"

/-- src/config.py `Messages.ITEM_ADDED`. -/
def Messages.ITEM_ADDED (item list_name : String) : String :=
  "✅ Added '" ++ item ++ "' to '" ++ list_name ++ "'"

/-- src/config.py `Messages.ITEM_EXISTS`. -/
def Messages.ITEM_EXISTS (item list_name : String) : String :=
  "⚠️ '" ++ item ++ "' is already in '" ++ list_name ++ "'"

/-- src/config.py `Messages.ITEM_REMOVED`. -/
def Messages.ITEM_REMOVED (item list_name : String) : String :=
  "✅ Removed '" ++ item ++ "' from '" ++ list_name ++ "'"

/-- src/config.py `Messages.ITEM_NOT_FOUND`. -/
def Messages.ITEM_NOT_FOUND (item list_name : String) : String :=
  "❌ '" ++ item ++ "' not found in '" ++ list_name ++ "'"

/-- src/config.py `Messages.LIST_DELETED`. -/
def Messages.LIST_DELETED (name : String) : String :=
  "🗑️ Deleted list '" ++ name ++ "'"

/-- src/config.py `Messages.NO_LISTS`. -/
def Messages.NO_LISTS : String :=
  "📝 No lists created yet! Use 'create <list_name>' to create one."

/-- src/config.py `Messages.EMPTY_LIST`. -/
def Messages.EMPTY_LIST (name : String) : String :=
  "📝 List '" ++ name ++ "' is empty"

/-- src/config.py `Messages.NO_SEARCH_RESULTS`. -/
def Messages.NO_SEARCH_RESULTS (term : String) : String :=
  "❌ No items found containing '" ++ term ++ "'"

/-- src/config.py `Messages.INVALID_LIST_NAME`. -/
def Messages.INVALID_LIST_NAME (max_len : Nat) : String :=
  "❌ List name must be 1-" ++ toString max_len ++ " characters long"

/-- src/config.py `Messages.INVALID_ITEM`. -/
def Messages.INVALID_ITEM (max_len : Nat) : String :=
  "❌ Item must be 1-" ++ toString max_len ++ " characters long"

/-- src/config.py `Messages.TOO_MANY_LISTS`. -/
def Messages.TOO_MANY_LISTS (max_lists : Nat) : String :=
  "❌ Maximum " ++ toString max_lists ++ " lists allowed"

/-- src/config.py `Messages.TOO_MANY_ITEMS`. -/
def Messages.TOO_MANY_ITEMS (max_items : Nat) : String :=
  "❌ Maximum " ++ toString max_items ++ " items per list allowed"

/-- Python `str.lower()` (ASCII case folding, character by character). -/
def pyLower (s : String) : String :=
  ⟨s.data.map Char.toLower⟩

/-- Python `str.strip()`: drop leading and trailing whitespace. -/
def pyStrip (s : String) : String :=
  ⟨((s.data.dropWhile Char.isWhitespace).reverse.dropWhile Char.isWhitespace).reverse⟩

/-- Python `str.split(",")`, character by character (an empty input yields
one empty piece, and separators at the ends yield empty pieces). -/
def splitCommaAux : List Char → List Char → List String
  | [], acc => [⟨acc.reverse⟩]
  | c :: rest, acc =>
    if c = ',' then ⟨acc.reverse⟩ :: splitCommaAux rest []
    else splitCommaAux rest (c :: acc)

/-- Python `str.split(",")` on a string. -/
def splitComma (s : String) : List String :=
  splitCommaAux s.data []

/-- Whether the first character list starts the second. -/
def leadsList : List Char → List Char → Bool
  | [], _ => true
  | _ :: _, [] => false
  | a :: as, b :: bs => a == b && leadsList as bs

/-- Whether the needle occurs in the haystack, tried at every suffix. -/
def containsCharsAux (needle : List Char) : List Char → Bool
  | [] => leadsList needle []
  | c :: rest => leadsList needle (c :: rest) || containsCharsAux needle rest

/-- Python's substring test `needle in hay`. -/
def containsSubstring (hay needle : String) : Bool :=
  containsCharsAux needle.data hay.data

/-- Python truthiness of `_find_list_name`'s result as used in
`if self._find_list_name(list_name):` — `None` and the empty string are
falsy, any other string truthy. -/
def pyTruthyStr : Option String → Bool
  | none => false
  | some s => s != ""

/-- `ListManager._validate_list_name`. -/
def validate_list_name (cfg : Config) (list_name : String) : Except BotError Unit :=
  if list_name = "" ∨ pyStrip list_name = "" then
    .error (.validation "List name cannot be empty")
  else if cfg.max_list_name_length < (pyStrip list_name).length then
    .error (.validation (Messages.INVALID_LIST_NAME cfg.max_list_name_length))
  else .ok ()

/-- `ListManager._validate_item`. -/
def validate_item (cfg : Config) (item : String) : Except BotError Unit :=
  if item = "" ∨ pyStrip item = "" then
    .error (.validation "Item cannot be empty")
  else if cfg.max_item_length < (pyStrip item).length then
    .error (.validation (Messages.INVALID_ITEM cfg.max_item_length))
  else .ok ()

/-- `ListManager._find_list_name`: scan the stored keys and return the first
whose lowercased form equals the lowercased input (the input is not
trimmed by this helper). -/
def find_list_name (lists : Lists) (list_name : String) : Option String :=
  (lists.find? (fun p => pyLower p.1 == pyLower list_name)).map (fun p => p.1)

/-- Dict indexing `self.lists[name]`; callers only index with a key
returned by `_find_list_name`, so the key is present. -/
def getItems (lists : Lists) (key : String) : List String :=
  match lists.find? (fun p => p.1 == key) with
  | some p => p.2
  | none => []

/-- Dict assignment `self.lists[key] = items` (also the effect of mutating
the stored list object in place). -/
def setItems (lists : Lists) (key : String) (items : List String) : Lists :=
  lists.map (fun p => if p.1 = key then (p.1, items) else p)

/-- `ListManager._save_data`: succeeds, or raises `DataStorageError` when
the underlying write fails (`saveOk = false`). -/
def save_data (saveOk : Bool) : Except BotError Unit :=
  if saveOk then .ok () else .error (.dataStorage "Failed to save data")

/-- The `except` clauses of `create_list`: the four expected exception kinds
become `str(e)`, anything else the generic creation failure string. -/
def create_list_catch : BotError → String
  | .validation m => m
  | .listExists m => m
  | .limitExceeded m => m
  | _ => "❌ An error occurred while creating the list"

/-- `ListManager.create_list`, returning the collection after the call and
the string returned to the caller. -/
def create_list (cfg : Config) (saveOk : Bool) (lists : Lists) (list_name : String) :
    Lists × String :=
  match validate_list_name cfg list_name with
  | .error e => (lists, create_list_catch e)
  | .ok _ =>
    if cfg.max_lists_per_user ≤ lists.length then
      (lists, create_list_catch (.limitExceeded (Messages.TOO_MANY_LISTS cfg.max_lists_per_user)))
    else
      let name := pyStrip list_name
      if pyTruthyStr (find_list_name lists name) then
        (lists, create_list_catch (.listExists (Messages.LIST_EXISTS name)))
      else
        let newLists := lists ++ [(name, [])]
        match save_data saveOk with
        | .error e => (newLists, create_list_catch e)
        | .ok _ => (newLists, Messages.LIST_CREATED name)

/-- The `except` clauses of `add_item`. -/
def add_item_catch : BotError → String
  | .validation m => m
  | .listNotFound m => m
  | .itemExists m => m
  | .limitExceeded m => m
  | _ => "❌ An error occurred while adding the item"

/-- `ListManager.add_item`. -/
def add_item (cfg : Config) (saveOk : Bool) (lists : Lists) (list_name item : String) :
    Lists × String :=
  match validate_item cfg item with
  | .error e => (lists, add_item_catch e)
  | .ok _ =>
    match find_list_name lists list_name with
    | none => (lists, add_item_catch (.listNotFound (Messages.LIST_NOT_FOUND list_name)))
    | some actual =>
      if cfg.max_items_per_list ≤ (getItems lists actual).length then
        (lists, add_item_catch (.limitExceeded (Messages.TOO_MANY_ITEMS cfg.max_items_per_list)))
      else
        let item' := pyStrip item
        if item' ∈ getItems lists actual then
          (lists, add_item_catch (.itemExists (Messages.ITEM_EXISTS item' actual)))
        else
          let newLists := setItems lists actual (getItems lists actual ++ [item'])
          match save_data saveOk with
          | .error e => (newLists, add_item_catch e)
          | .ok _ => (newLists, Messages.ITEM_ADDED item' actual)

/-- The comma split of `add_multiple_items`:
`[item.strip() for item in items_text.split(",") if item.strip()]`. -/
def splitItems (items_text : String) : List String :=
  ((splitComma items_text).map pyStrip).filter (fun s => s != "")

/-- The running state of `add_multiple_items`' per-item loop: the target
list's current content and the added/skipped/failed accumulators. -/
structure ManyState where
  cur : List String
  added : List String
  skipped : List String
  failed : List String

/-- One iteration of the `for item in items` loop of `add_multiple_items`. -/
def processOne (cfg : Config) (st : ManyState) (item : String) : ManyState :=
  match validate_item cfg item with
  | .error _ => { st with failed := st.failed ++ [item ++ " (invalid)"] }
  | .ok _ =>
    if item ∈ st.cur then { st with skipped := st.skipped ++ [item] }
    else { st with cur := st.cur ++ [item], added := st.added ++ [item] }

/-- The whole per-item loop of `add_multiple_items`, starting from the
target list's current content. -/
def processItems (cfg : Config) (cur : List String) (items : List String) : ManyState :=
  items.foldl (processOne cfg) ⟨cur, [], [], []⟩

/-- The `"  • item"` bullet lines of `add_multiple_items`' response. -/
def bulleted (items : List String) : List String :=
  items.map (fun i => "  • " ++ i)

/-- The composite response message built by `add_multiple_items` from its
added/skipped/failed accumulators. -/
def add_many_message (actual : String) (added skipped failed : List String) : String :=
  let p1 := if added = [] then [] else
    ("✅ Added " ++ toString added.length ++ " items to '" ++ actual ++ "':") :: bulleted added
  let p2 := if skipped = [] then [] else
    ("⚠️ Skipped " ++ toString skipped.length ++ " duplicate items:") :: bulleted skipped
  let p3 := if failed = [] then [] else
    ("❌ Failed to add " ++ toString failed.length ++ " items:") :: bulleted failed
  let result_parts := p1 ++ p2 ++ p3
  if result_parts = [] then "❌ No items were processed"
  else String.intercalate "\n" result_parts

/-- The up-front batch-capacity rejection message of `add_multiple_items`. -/
def add_many_limit_message (count max_items : Nat) : String :=
  "❌ Adding " ++ toString count ++ " items would exceed the limit of " ++
    toString max_items ++ " items per list"

/-- The `except` clauses of `add_multiple_items`. -/
def add_many_catch : BotError → String
  | .validation m => m
  | .listNotFound m => m
  | .limitExceeded m => m
  | _ => "❌ An error occurred while adding the items"

/-- `ListManager.add_multiple_items`. -/
def add_multiple_items (cfg : Config) (saveOk : Bool) (lists : Lists)
    (list_name items_text : String) : Lists × String :=
  match find_list_name lists list_name with
  | none => (lists, add_many_catch (.listNotFound (Messages.LIST_NOT_FOUND list_name)))
  | some actual =>
    let items := splitItems items_text
    if items = [] then
      (lists, add_many_catch (.validation "No valid items found"))
    else if cfg.max_items_per_list < (getItems lists actual).length + items.length then
      (lists, add_many_catch (.limitExceeded (add_many_limit_message items.length cfg.max_items_per_list)))
    else
      let st := processItems cfg (getItems lists actual) items
      let newLists := setItems lists actual st.cur
      if st.added = [] then
        (newLists, add_many_message actual st.added st.skipped st.failed)
      else
        match save_data saveOk with
        | .error e => (newLists, add_many_catch e)
        | .ok _ => (newLists, add_many_message actual st.added st.skipped st.failed)

/-- The `except` clauses of `remove_item`. -/
def remove_item_catch : BotError → String
  | .listNotFound m => m
  | .itemNotFound m => m
  | _ => "❌ An error occurred while removing the item"

/-- `ListManager.remove_item` (`list.remove` drops the first occurrence). -/
def remove_item (_cfg : Config) (saveOk : Bool) (lists : Lists) (list_name item : String) :
    Lists × String :=
  match find_list_name lists list_name with
  | none => (lists, remove_item_catch (.listNotFound (Messages.LIST_NOT_FOUND list_name)))
  | some actual =>
    let item' := pyStrip item
    if item' ∉ getItems lists actual then
      (lists, remove_item_catch (.itemNotFound (Messages.ITEM_NOT_FOUND item' actual)))
    else
      let newLists := setItems lists actual ((getItems lists actual).erase item')
      match save_data saveOk with
      | .error e => (newLists, remove_item_catch e)
      | .ok _ => (newLists, Messages.ITEM_REMOVED item' actual)

/-- The `except` clauses of `show_list`. -/
def show_list_catch : BotError → String
  | .listNotFound m => m
  | _ => "❌ An error occurred while showing the list"

/-- The `for i, item in enumerate(items, 1)` enumeration of `show_list`. -/
def numbered_lines (items : List String) : String :=
  String.join ((items.enumFrom 1).map (fun p => toString p.1 ++ ". " ++ p.2 ++ "\n"))

/-- `ListManager.show_list` (a pure read: the collection is unchanged). -/
def show_list (lists : Lists) (list_name : String) : String :=
  match find_list_name lists list_name with
  | none => show_list_catch (.listNotFound (Messages.LIST_NOT_FOUND list_name))
  | some actual =>
    let items := getItems lists actual
    if items = [] then Messages.EMPTY_LIST actual
    else
      pyStrip ("📋 **" ++ actual ++ "** (" ++ toString items.length ++ " items):\n" ++
        numbered_lines items)

/-- Stable insertion of one entry into a key-sorted prefix, for
`sorted(self.lists.items())` (keys are unique, so comparing keys agrees
with Python's tuple comparison). -/
def insertByKey (p : String × List String) : Lists → Lists
  | [] => [p]
  | q :: rest => if p.1 < q.1 then p :: q :: rest else q :: insertByKey p rest

/-- `sorted(self.lists.items())`: the entries sorted by list name ascending. -/
def sortedByKey (lists : Lists) : Lists :=
  lists.foldr insertByKey []

/-- `ListManager.show_all_lists`. -/
def show_all_lists (lists : Lists) : String :=
  if lists = [] then Messages.NO_LISTS
  else
    pyStrip ("📚 **All Lists:**\n" ++
      String.join ((sortedByKey lists).map
        (fun p => "• " ++ p.1 ++ " (" ++ toString p.2.length ++ " items)\n")))

/-- The `except` clauses of `delete_list`. -/
def delete_list_catch : BotError → String
  | .listNotFound m => m
  | _ => "❌ An error occurred while deleting the list"

/-- `ListManager.delete_list` (`del self.lists[actual]` removes the key's
binding entirely). -/
def delete_list (_cfg : Config) (saveOk : Bool) (lists : Lists) (list_name : String) :
    Lists × String :=
  match find_list_name lists list_name with
  | none => (lists, delete_list_catch (.listNotFound (Messages.LIST_NOT_FOUND list_name)))
  | some actual =>
    let newLists := lists.filter (fun p => p.1 != actual)
    match save_data saveOk with
    | .error e => (newLists, delete_list_catch e)
    | .ok _ => (newLists, Messages.LIST_DELETED actual)

/-- The `except` clauses of `search_item`. -/
def search_item_catch : BotError → String
  | .validation m => m
  | _ => "❌ An error occurred while searching"

/-- `ListManager.search_item` (a pure read). -/
def search_item (lists : Lists) (search_term : String) : String :=
  if search_term = "" ∨ pyStrip search_term = "" then
    search_item_catch (.validation "Search term cannot be empty")
  else
    let term := pyStrip search_term
    let term_lower := pyLower term
    let results := (lists.map (fun p =>
      (p.2.filter (fun item => containsSubstring (pyLower item) term_lower)).map
        (fun item => "📋 " ++ p.1 ++ ": " ++ item))).flatten
    if results = [] then Messages.NO_SEARCH_RESULTS term
    else "🔍 **Search results for '" ++ term ++ "':**\n" ++ String.intercalate "\n" results

/-- The dictionary returned by `get_stats` (its average field is a float in
the source; exact division stands in for float division here). -/
structure Stats where
  total_lists : Nat
  total_items : Nat
  average_items_per_list : Rat
  largest_list_size : Nat

/-- `ListManager.get_stats`. -/
def get_stats (lists : Lists) : Stats :=
  let total_items := (lists.map (fun p => p.2.length)).sum
  { total_lists := lists.length
    total_items := total_items
    average_items_per_list :=
      if lists = [] then 0 else (total_items : Rat) / (lists.length : Rat)
    largest_list_size :=
      if lists = [] then 0 else ((lists.map (fun p => p.2.length)).foldl Nat.max 0) }

/-- One call to the public surface of `ListManager` (the nine domain
operations of the spec's section 4.2). -/
inductive ApiCall where
  | createList (n : String)
  | addItem (n x : String)
  | addMultipleItems (n t : String)
  | removeItem (n x : String)
  | showList (n : String)
  | showAllLists
  | deleteList (n : String)
  | searchItem (t : String)
  | getStats

/-- What a public operation hands back: a message string, or (for
`get_stats` alone) the statistics dictionary. -/
inductive ApiResult where
  | text (s : String)
  | stats (d : Stats)

/-- Whether a public result is a string. -/
def ApiResult.isText : ApiResult → Bool
  | .text _ => true
  | .stats _ => false

/-- Dispatch one public call, returning the collection after the call and
the result handed to the caller. -/
def api_call (cfg : Config) (saveOk : Bool) (lists : Lists) : ApiCall → Lists × ApiResult
  | .createList n =>
    ((create_list cfg saveOk lists n).1, .text (create_list cfg saveOk lists n).2)
  | .addItem n x =>
    ((add_item cfg saveOk lists n x).1, .text (add_item cfg saveOk lists n x).2)
  | .addMultipleItems n t =>
    ((add_multiple_items cfg saveOk lists n t).1, .text (add_multiple_items cfg saveOk lists n t).2)
  | .removeItem n x =>
    ((remove_item cfg saveOk lists n x).1, .text (remove_item cfg saveOk lists n x).2)
  | .showList n => (lists, .text (show_list lists n))
  | .showAllLists => (lists, .text (show_all_lists lists))
  | .deleteList n =>
    ((delete_list cfg saveOk lists n).1, .text (delete_list cfg saveOk lists n).2)
  | .searchItem t => (lists, .text (search_item lists t))
  | .getStats => (lists, .stats (get_stats lists))

/-- The structured values `json.load` can produce. -/
inductive Json where
  | null
  | bool (b : Bool)
  | num (n : Int)
  | str (s : String)
  | arr (elems : List Json)
  | obj (entries : List (String × Json))

/-- What reading the storage file can yield: no file, content that parses
to a structured value, or content that fails to parse (or to be read)
at all. -/
inductive FileContent where
  | absent
  | parsed (data : Json)
  | malformed

/-- The observable outcome of `_load_data`: the adopted in-memory value
(`self.lists = data` adopts whatever dictionary was parsed, so entries
keep their raw structured values), whether the invalid-format warning was
logged, and the corruption backup attempted (path and success). -/
structure LoadOutcome where
  lists : List (String × Json)
  warned_invalid : Bool
  backup_path : Option String
  backup_ok : Bool

/-- `ListManager._backup_corrupted_file`: when the data file exists, copy
it to `data_file + ".backup_" + timestamp`; a failed copy (`copyOk =
false`) is only logged. -/
def backup_corrupted_file (file_exists copyOk : Bool) (data_file ts : String) :
    Option String × Bool :=
  if file_exists then (some (data_file ++ ".backup_" ++ ts), copyOk)
  else (none, false)

/-- `ListManager._load_data`. -/
def load_data (file : FileContent) (copyOk : Bool) (data_file ts : String) : LoadOutcome :=
  match file with
  | .absent => ⟨[], false, none, false⟩
  | .parsed data =>
    match data with
    | .obj entries => ⟨entries, false, none, false⟩
    | _ => ⟨[], true, none, false⟩
  | .malformed =>
    let b := backup_corrupted_file true copyOk data_file ts
    ⟨[], false, b.1, b.2⟩

/-- The structured value `_save_data` writes: `json.dump(self.lists, f)`
on a well-typed collection. -/
def save_data_content (lists : Lists) : Json :=
  .obj (lists.map (fun p => (p.1, Json.arr (p.2.map Json.str))))

/-- Read a sequence of strings back out of a stored array. -/
def decodeItems : List Json → Option (List String)
  | [] => some []
  | .str s :: rest => (decodeItems rest).map (fun r => s :: r)
  | _ => none

/-- Read a typed collection back out of an adopted storage mapping. -/
def decodeLists : List (String × Json) → Option Lists
  | [] => some []
  | (k, .arr xs) :: rest =>
    match decodeItems xs, decodeLists rest with
    | some items, some r => some ((k, items) :: r)
    | _, _ => none
  | _ => none

lemma find_list_name_some {lists : Lists} {n k : String}
    (h : find_list_name lists n = some k) :
    ∃ its, (k, its) ∈ lists ∧ pyLower k = pyLower n := by
  unfold find_list_name at h
  cases hf : lists.find? (fun p => pyLower p.1 == pyLower n) with
  | none => rw [hf] at h; simp at h
  | some p =>
    rw [hf] at h
    simp only [Option.map_some'] at h
    cases h
    have hm := List.mem_of_find?_eq_some hf
    have hp := List.find?_some hf
    simp only [beq_iff_eq] at hp
    exact ⟨p.2, hm, hp⟩

lemma find_list_name_none {lists : Lists} {n : String} :
    find_list_name lists n = none ↔ ∀ p ∈ lists, pyLower p.1 ≠ pyLower n := by
  unfold find_list_name
  simp [List.find?_eq_none]

lemma find_list_name_ext {lists : Lists} {n m : String} (h : pyLower n = pyLower m) :
    find_list_name lists n = find_list_name lists m := by
  unfold find_list_name
  rw [h]

lemma getItems_mem {lists : Lists} {k : String} {i : String}
    (hi : i ∈ getItems lists k) : ∃ p ∈ lists, i ∈ p.2 := by
  unfold getItems at hi
  cases hf : lists.find? (fun p => p.1 == k) with
  | none => rw [hf] at hi; simp at hi
  | some p =>
    rw [hf] at hi
    exact ⟨p, List.mem_of_find?_eq_some hf, hi⟩

lemma setItems_keys (lists : Lists) (k : String) (v : List String) :
    (setItems lists k v).map Prod.fst = lists.map Prod.fst := by
  unfold setItems
  rw [List.map_map]
  apply List.map_congr_left
  intro p _
  by_cases h : p.1 = k <;> simp [h]

lemma mem_setItems_of_ne {lists : Lists} {k : String} {v : List String} {p : String × List String}
    (hp : p ∈ lists) (h : p.1 ≠ k) : p ∈ setItems lists k v := by
  unfold setItems
  refine List.mem_map.mpr ⟨p, hp, ?_⟩
  simp [h]

lemma mem_setItems_shape {lists : Lists} {k : String} {v : List String} {q : String × List String}
    (hq : q ∈ setItems lists k v) : q ∈ lists ∨ (q.2 = v ∧ ∃ p ∈ lists, q.1 = p.1) := by
  unfold setItems at hq
  obtain ⟨p, hp, hpq⟩ := List.mem_map.mp hq
  by_cases h : p.1 = k
  · have hif : (if p.1 = k then (p.1, v) else p) = (p.1, v) := if_pos h
    rw [hif] at hpq
    right
    exact ⟨by rw [← hpq], p, hp, by rw [← hpq]⟩
  · simp only [if_neg h] at hpq
    exact Or.inl (hpq ▸ hp)

lemma getItems_setItems {lists : Lists} {k : String} (v : List String)
    (h : ∃ its, (k, its) ∈ lists) : getItems (setItems lists k v) k = v := by
  induction lists with
  | nil => simp at h
  | cons p rest ih =>
    by_cases hk : p.1 = k
    · simp [getItems, setItems, List.find?_cons_of_pos, hk]
    · obtain ⟨its, hits⟩ := h
      rcases List.mem_cons.mp hits with heq | hrest
      · exact absurd (congrArg Prod.fst heq).symm hk
      · have := ih ⟨its, hrest⟩
        simpa [getItems, setItems, List.find?_cons_of_neg, hk] using this

lemma create_list_state (cfg : Config) (sOk : Bool) (l : Lists) (n : String) :
    (create_list cfg sOk l n).1 = l ∨
      (validate_list_name cfg n = .ok () ∧ l.length < cfg.max_lists_per_user ∧
       pyTruthyStr (find_list_name l (pyStrip n)) = false ∧
       (create_list cfg sOk l n).1 = l ++ [(pyStrip n, [])]) := by
  unfold create_list
  cases hv : validate_list_name cfg n with
  | error e => exact Or.inl (by trivial)
  | ok u =>
    cases u
    by_cases hle : cfg.max_lists_per_user ≤ l.length
    · simp only [if_pos hle]
      exact Or.inl (by trivial)
    · simp only [if_neg hle]
      cases ht : pyTruthyStr (find_list_name l (pyStrip n)) with
      | true => simp only [if_pos rfl, ht]; exact Or.inl (by trivial)
      | false =>
        simp only [ht, Bool.false_eq_true, if_neg]
        refine Or.inr ⟨by trivial, Nat.lt_of_not_le hle, by trivial, ?_⟩
        cases hs : save_data sOk <;> simp

lemma add_item_state (cfg : Config) (sOk : Bool) (l : Lists) (n x : String) :
    (add_item cfg sOk l n x).1 = l ∨
      ∃ k, find_list_name l n = some k ∧ validate_item cfg x = .ok () ∧
        (getItems l k).length < cfg.max_items_per_list ∧ pyStrip x ∉ getItems l k ∧
        (add_item cfg sOk l n x).1 = setItems l k (getItems l k ++ [pyStrip x]) := by
  unfold add_item
  cases hv : validate_item cfg x with
  | error e => exact Or.inl (by trivial)
  | ok u =>
    cases u
    cases hf : find_list_name l n with
    | none => exact Or.inl (by trivial)
    | some k =>
      by_cases hle : cfg.max_items_per_list ≤ (getItems l k).length
      · simp only [if_pos hle]
        exact Or.inl (by trivial)
      · simp only [if_neg hle]
        by_cases hmem : pyStrip x ∈ getItems l k
        · simp only [if_pos hmem]
          exact Or.inl (by trivial)
        · simp only [if_neg hmem]
          refine Or.inr ⟨k, by trivial, by trivial, Nat.lt_of_not_le hle, hmem, ?_⟩
          cases hs : save_data sOk <;> simp

lemma remove_item_state (cfg : Config) (sOk : Bool) (l : Lists) (n x : String) :
    (remove_item cfg sOk l n x).1 = l ∨
      ∃ k, find_list_name l n = some k ∧ pyStrip x ∈ getItems l k ∧
        (remove_item cfg sOk l n x).1 = setItems l k ((getItems l k).erase (pyStrip x)) := by
  unfold remove_item
  cases hf : find_list_name l n with
  | none => exact Or.inl (by trivial)
  | some k =>
    by_cases hmem : pyStrip x ∈ getItems l k
    · simp only [if_neg (not_not_intro hmem)]
      refine Or.inr ⟨k, by trivial, hmem, ?_⟩
      cases hs : save_data sOk <;> simp
    · simp only [if_pos hmem]
      exact Or.inl (by trivial)

lemma delete_list_state (cfg : Config) (sOk : Bool) (l : Lists) (n : String) :
    (delete_list cfg sOk l n).1 = l ∨
      ∃ k, find_list_name l n = some k ∧
        (delete_list cfg sOk l n).1 = l.filter (fun p => p.1 != k) := by
  unfold delete_list
  cases hf : find_list_name l n with
  | none => exact Or.inl (by trivial)
  | some k =>
    refine Or.inr ⟨k, by trivial, ?_⟩
    cases hs : save_data sOk <;> simp

lemma add_multiple_items_state (cfg : Config) (sOk : Bool) (l : Lists) (n t : String) :
    (add_multiple_items cfg sOk l n t).1 = l ∨
      ∃ k, find_list_name l n = some k ∧
        (add_multiple_items cfg sOk l n t).1 =
          setItems l k (processItems cfg (getItems l k) (splitItems t)).cur := by
  unfold add_multiple_items
  cases hf : find_list_name l n with
  | none => exact Or.inl (by trivial)
  | some k =>
    by_cases hemp : splitItems t = []
    · simp only [if_pos hemp]
      exact Or.inl (by trivial)
    · simp only [if_neg hemp]
      by_cases hcap : cfg.max_items_per_list < (getItems l k).length + (splitItems t).length
      · simp only [if_pos hcap]
        exact Or.inl (by trivial)
      · simp only [if_neg hcap]
        refine Or.inr ⟨k, by trivial, ?_⟩
        by_cases hadd : (processItems cfg (getItems l k) (splitItems t)).added = []
        · simp only [if_pos hadd]
        · simp only [if_neg hadd]
          cases hs : save_data sOk <;> simp

lemma create_list_save_indep (cfg : Config) (a b : Bool) (l : Lists) (n : String) :
    (create_list cfg a l n).1 = (create_list cfg b l n).1 := by
  unfold create_list
  cases hv : validate_list_name cfg n with
  | error e => rfl
  | ok u =>
    cases u
    by_cases hle : cfg.max_lists_per_user ≤ l.length
    · simp only [if_pos hle]
    · simp only [if_neg hle]
      cases ht : pyTruthyStr (find_list_name l (pyStrip n)) with
      | true => simp [ht]
      | false =>
        simp only [ht, Bool.false_eq_true, if_neg]
        cases save_data a <;> cases save_data b <;> simp

lemma add_item_save_indep (cfg : Config) (a b : Bool) (l : Lists) (n x : String) :
    (add_item cfg a l n x).1 = (add_item cfg b l n x).1 := by
  unfold add_item
  cases hv : validate_item cfg x with
  | error e => rfl
  | ok u =>
    cases u
    cases hf : find_list_name l n with
    | none => rfl
    | some k =>
      by_cases hle : cfg.max_items_per_list ≤ (getItems l k).length
      · simp only [if_pos hle]
      · simp only [if_neg hle]
        by_cases hm : pyStrip x ∈ getItems l k
        · simp only [if_pos hm]
        · simp only [if_neg hm]
          cases save_data a <;> cases save_data b <;> simp

lemma add_multiple_items_save_indep (cfg : Config) (a b : Bool) (l : Lists) (n t : String) :
    (add_multiple_items cfg a l n t).1 = (add_multiple_items cfg b l n t).1 := by
  unfold add_multiple_items
  cases hf : find_list_name l n with
  | none => rfl
  | some k =>
    by_cases hemp : splitItems t = []
    · simp only [if_pos hemp]
    · simp only [if_neg hemp]
      by_cases hcap : cfg.max_items_per_list < (getItems l k).length + (splitItems t).length
      · simp only [if_pos hcap]
      · simp only [if_neg hcap]
        by_cases hadd : (processItems cfg (getItems l k) (splitItems t)).added = []
        · simp only [if_pos hadd]
        · simp only [if_neg hadd]
          cases save_data a <;> cases save_data b <;> simp

lemma remove_item_save_indep (cfg : Config) (a b : Bool) (l : Lists) (n x : String) :
    (remove_item cfg a l n x).1 = (remove_item cfg b l n x).1 := by
  unfold remove_item
  cases hf : find_list_name l n with
  | none => rfl
  | some k =>
    by_cases hm : pyStrip x ∈ getItems l k
    · simp only [if_neg (not_not_intro hm)]
      cases save_data a <;> cases save_data b <;> simp
    · simp only [if_pos hm]

lemma delete_list_save_indep (cfg : Config) (a b : Bool) (l : Lists) (n : String) :
    (delete_list cfg a l n).1 = (delete_list cfg b l n).1 := by
  unfold delete_list
  cases hf : find_list_name l n with
  | none => rfl
  | some k => cases save_data a <;> cases save_data b <;> simp

lemma processOne_cur (cfg : Config) (st : ManyState) (item : String) :
    (processOne cfg st item).cur = st.cur ∨ (processOne cfg st item).cur = st.cur ++ [item] := by
  unfold processOne
  cases hv : validate_item cfg item with
  | error e => exact Or.inl rfl
  | ok u =>
    cases u
    by_cases hm : item ∈ st.cur
    · simp only [if_pos hm]
      exact Or.inl (by trivial)
    · simp only [if_neg hm]
      exact Or.inr (by trivial)

lemma foldl_processOne_cur_mem (cfg : Config) (items : List String) :
    ∀ (st : ManyState) (i : String),
      i ∈ (items.foldl (processOne cfg) st).cur → i ∈ st.cur ∨ i ∈ items := by
  induction items with
  | nil =>
    intro st i hi
    exact Or.inl hi
  | cons a rest ih =>
    intro st i hi
    rcases ih (processOne cfg st a) i hi with h | h
    · rcases processOne_cur cfg st a with hc | hc
      · rw [hc] at h
        exact Or.inl h
      · rw [hc] at h
        rcases List.mem_append.mp h with hcur | hone
        · exact Or.inl hcur
        · right
          simp only [List.mem_singleton] at hone
          simp [hone]
    · right
      exact List.mem_cons_of_mem _ h

lemma splitItems_mem_ne {t s : String} (h : s ∈ splitItems t) : s ≠ "" := by
  unfold splitItems at h
  have := List.of_mem_filter h
  simpa using this

/-- Every stored key is a nonempty string. -/
def KeysOk (l : Lists) : Prop := ∀ p ∈ l, p.1 ≠ ""

/-- No two entries carry case-insensitively equal keys. -/
def CaseUnique (l : Lists) : Prop :=
  l.Pairwise (fun p q => pyLower p.1 ≠ pyLower q.1)

/-- Every stored item is a nonempty string. -/
def ItemsOk (l : Lists) : Prop := ∀ p ∈ l, ∀ i ∈ p.2, i ≠ ""

/-- The state invariant the public operations maintain. -/
def Inv (l : Lists) : Prop := KeysOk l ∧ CaseUnique l ∧ ItemsOk l

lemma validate_list_name_ok_strip {cfg : Config} {n : String}
    (h : validate_list_name cfg n = .ok ()) : pyStrip n ≠ "" := by
  unfold validate_list_name at h
  by_cases h1 : n = "" ∨ pyStrip n = ""
  · rw [if_pos h1] at h
    exact absurd h (by simp)
  · intro hc
    exact h1 (Or.inr hc)

lemma validate_item_ok_strip {cfg : Config} {x : String}
    (h : validate_item cfg x = .ok ()) : pyStrip x ≠ "" := by
  unfold validate_item at h
  by_cases h1 : x = "" ∨ pyStrip x = ""
  · rw [if_pos h1] at h
    exact absurd h (by simp)
  · intro hc
    exact h1 (Or.inr hc)

lemma find_eq_none_of_truthy_false {l : Lists} {n : String} (hk : KeysOk l)
    (h : pyTruthyStr (find_list_name l n) = false) : find_list_name l n = none := by
  cases hf : find_list_name l n with
  | none => rfl
  | some k =>
    rw [hf] at h
    unfold pyTruthyStr at h
    simp only [bne_eq_false_iff_eq] at h
    obtain ⟨its, hmem, _⟩ := find_list_name_some hf
    exact absurd h (hk (k, its) hmem)

lemma truthy_of_find_some {l : Lists} {n k : String} (hk : KeysOk l)
    (h : find_list_name l n = some k) : pyTruthyStr (find_list_name l n) = true := by
  rw [h]
  unfold pyTruthyStr
  obtain ⟨its, hmem, _⟩ := find_list_name_some h
  simpa using hk (k, its) hmem

lemma caseUnique_setItems {l : Lists} {k : String} {v : List String}
    (h : CaseUnique l) : CaseUnique (setItems l k v) := by
  unfold setItems CaseUnique
  apply h.map
  intro a b hab
  have ha : (if a.1 = k then (a.1, v) else a).1 = a.1 := by
    by_cases h1 : a.1 = k <;> simp [h1]
  have hb : (if b.1 = k then (b.1, v) else b).1 = b.1 := by
    by_cases h1 : b.1 = k <;> simp [h1]
  rw [ha, hb]
  exact hab

lemma inv_setItems {l : Lists} (h : Inv l) {k : String} {v : List String}
    (hv : ∀ i ∈ v, i ≠ "") : Inv (setItems l k v) := by
  obtain ⟨hkeys, hcase, hitems⟩ := h
  refine ⟨?_, caseUnique_setItems hcase, ?_⟩
  · intro q hq
    rcases mem_setItems_shape hq with h1 | ⟨_, p, hp, hq1⟩
    · exact hkeys q h1
    · rw [hq1]
      exact hkeys p hp
  · intro q hq
    rcases mem_setItems_shape hq with h1 | ⟨hq2, p, hp, _⟩
    · exact hitems q h1
    · rw [hq2]
      exact hv

lemma inv_create (cfg : Config) (sOk : Bool) (n : String) {l : Lists}
    (h : Inv l) : Inv (create_list cfg sOk l n).1 := by
  rcases create_list_state cfg sOk l n with heq | ⟨hval, _, ht, heq⟩
  · rwa [heq]
  · rw [heq]
    obtain ⟨hkeys, hcase, hitems⟩ := h
    have hstrip := validate_list_name_ok_strip hval
    have hnone := find_eq_none_of_truthy_false hkeys ht
    have hall := find_list_name_none.mp hnone
    refine ⟨?_, ?_, ?_⟩
    · intro p hp
      rcases List.mem_append.mp hp with h1 | h1
      · exact hkeys p h1
      · simp only [List.mem_singleton] at h1
        rw [h1]
        exact hstrip
    · rw [CaseUnique, List.pairwise_append]
      refine ⟨hcase, List.pairwise_singleton _ _, ?_⟩
      intro p hp q hq
      simp only [List.mem_singleton] at hq
      rw [hq]
      exact hall p hp
    · intro p hp
      rcases List.mem_append.mp hp with h1 | h1
      · exact hitems p h1
      · simp only [List.mem_singleton] at h1
        rw [h1]
        intro i hi
        simp at hi

lemma inv_add_item (cfg : Config) (sOk : Bool) (n x : String) {l : Lists}
    (h : Inv l) : Inv (add_item cfg sOk l n x).1 := by
  rcases add_item_state cfg sOk l n x with heq | ⟨k, _, hval, _, _, heq⟩
  · rwa [heq]
  · rw [heq]
    apply inv_setItems h
    intro i hi
    rcases List.mem_append.mp hi with h1 | h1
    · obtain ⟨p, hp, hip⟩ := getItems_mem h1
      exact h.2.2 p hp i hip
    · simp only [List.mem_singleton] at h1
      rw [h1]
      exact validate_item_ok_strip hval

lemma inv_add_multiple_items (cfg : Config) (sOk : Bool) (n t : String) {l : Lists}
    (h : Inv l) : Inv (add_multiple_items cfg sOk l n t).1 := by
  rcases add_multiple_items_state cfg sOk l n t with heq | ⟨k, _, heq⟩
  · rwa [heq]
  · rw [heq]
    apply inv_setItems h
    intro i hi
    rcases foldl_processOne_cur_mem cfg (splitItems t) _ i hi with h1 | h1
    · obtain ⟨p, hp, hip⟩ := getItems_mem h1
      exact h.2.2 p hp i hip
    · exact splitItems_mem_ne h1

lemma inv_remove_item (cfg : Config) (sOk : Bool) (n x : String) {l : Lists}
    (h : Inv l) : Inv (remove_item cfg sOk l n x).1 := by
  rcases remove_item_state cfg sOk l n x with heq | ⟨k, _, _, heq⟩
  · rwa [heq]
  · rw [heq]
    apply inv_setItems h
    intro i hi
    obtain ⟨p, hp, hip⟩ := getItems_mem (List.erase_subset _ _ hi)
    exact h.2.2 p hp i hip

lemma inv_delete_list (cfg : Config) (sOk : Bool) (n : String) {l : Lists}
    (h : Inv l) : Inv (delete_list cfg sOk l n).1 := by
  rcases delete_list_state cfg sOk l n with heq | ⟨k, _, heq⟩
  · rwa [heq]
  · rw [heq]
    obtain ⟨hkeys, hcase, hitems⟩ := h
    refine ⟨?_, ?_, ?_⟩
    · intro p hp
      exact hkeys p (List.mem_of_mem_filter hp)
    · exact List.Pairwise.sublist (List.filter_sublist l) hcase
    · intro p hp
      exact hitems p (List.mem_of_mem_filter hp)

/-- The states reachable from the empty collection through the public
mutating operations (the read operations do not change the state). -/
inductive Reachable (cfg : Config) : Lists → Prop where
  | empty : Reachable cfg []
  | create_step (sOk : Bool) (n : String) {l : Lists} :
      Reachable cfg l → Reachable cfg (create_list cfg sOk l n).1
  | add_step (sOk : Bool) (n x : String) {l : Lists} :
      Reachable cfg l → Reachable cfg (add_item cfg sOk l n x).1
  | add_many_step (sOk : Bool) (n t : String) {l : Lists} :
      Reachable cfg l → Reachable cfg (add_multiple_items cfg sOk l n t).1
  | remove_step (sOk : Bool) (n x : String) {l : Lists} :
      Reachable cfg l → Reachable cfg (remove_item cfg sOk l n x).1
  | delete_step (sOk : Bool) (n : String) {l : Lists} :
      Reachable cfg l → Reachable cfg (delete_list cfg sOk l n).1

lemma reachable_inv {cfg : Config} {l : Lists} (h : Reachable cfg l) : Inv l := by
  induction h with
  | empty => exact ⟨by intro p hp; simp at hp, List.Pairwise.nil, by intro p hp; simp at hp⟩
  | create_step sOk n _ ih => exact inv_create _ _ _ ih
  | add_step sOk n x _ ih => exact inv_add_item _ _ _ _ ih
  | add_many_step sOk n t _ ih => exact inv_add_multiple_items _ _ _ _ ih
  | remove_step sOk n x _ ih => exact inv_remove_item _ _ _ _ ih
  | delete_step sOk n _ ih => exact inv_delete_list _ _ _ ih


lemma caseUnique_filter_le_one {l : Lists} (h : CaseUnique l) (c : String) :
    (l.filter (fun p => pyLower p.1 == pyLower c)).length ≤ 1 := by
  induction l with
  | nil => simp
  | cons p rest ih =>
    have hp := List.pairwise_cons.mp h
    by_cases hc : pyLower p.1 == pyLower c
    · have hnil : rest.filter (fun q => pyLower q.1 == pyLower c) = [] := by
        rw [List.filter_eq_nil_iff]
        intro q hq
        have hne := hp.1 q hq
        simp only [beq_iff_eq] at hc ⊢
        intro hqc
        exact hne (by rw [hqc, ← hc])
      simp only [List.filter_cons]
      rw [if_pos hc, hnil]
      simp
    · simp only [List.filter_cons]
      rw [if_neg hc]
      exact ih hp.2

lemma create_list_below_cap (cfg : Config) (sOk : Bool) (l : Lists) (n : String)
    (hv : validate_list_name cfg n = .ok ())
    (hcap : l.length < cfg.max_lists_per_user) :
    (pyTruthyStr (find_list_name l (pyStrip n)) = true ∧
       create_list cfg sOk l n = (l, Messages.LIST_EXISTS (pyStrip n))) ∨
    (pyTruthyStr (find_list_name l (pyStrip n)) = false ∧
       (create_list cfg sOk l n).1 = l ++ [(pyStrip n, [])]) := by
  unfold create_list
  rw [hv]
  rw [if_neg (Nat.not_le.mpr hcap)]
  cases ht : pyTruthyStr (find_list_name l (pyStrip n)) with
  | true =>
    left
    refine ⟨rfl, ?_⟩
    simp [ht, create_list_catch]
  | false =>
    right
    refine ⟨rfl, ?_⟩
    simp only [ht, Bool.false_eq_true, if_neg]
    cases save_data sOk <;> simp

lemma find_list_name_append_fresh {l : Lists} {n : String} (k : String)
    (hnone : find_list_name l n = none) (hk : pyLower k = pyLower n) :
    find_list_name (l ++ [(k, [])]) n = some k := by
  have hfind : l.find? (fun p => pyLower p.1 == pyLower n) = none := by
    unfold find_list_name at hnone
    exact Option.map_eq_none'.mp hnone
  unfold find_list_name
  rw [List.find?_append, hfind, Option.none_or]
  rw [List.find?_cons_of_pos _ (by simpa using hk)]
  rfl

lemma validate_item_ok_of (cfg : Config) (s : String) (hs : s ≠ "") (hstrip : pyStrip s = s)
    (hlen : s.length ≤ cfg.max_item_length) : validate_item cfg s = .ok () := by
  unfold validate_item
  rw [hstrip]
  rw [if_neg (by simp [hs])]
  rw [if_neg (Nat.not_lt.mpr hlen)]

lemma processItems_aba (cfg : Config) (cur : List String)
    (hlen : 1 ≤ cfg.max_item_length) (ha : "a" ∉ cur) (hb : "b" ∉ cur) :
    processItems cfg cur ["a", "b", "a"] = ⟨cur ++ ["a", "b"], ["a", "b"], ["a"], []⟩ := by
  have va : validate_item cfg "a" = .ok () :=
    validate_item_ok_of cfg "a" (by decide) (by decide) (by simpa using hlen)
  have vb : validate_item cfg "b" = .ok () :=
    validate_item_ok_of cfg "b" (by decide) (by decide) (by simpa using hlen)
  have hba : ("b" : String) ≠ "a" := by decide
  have s1 : processOne cfg ⟨cur, [], [], []⟩ "a" = ⟨cur ++ ["a"], ["a"], [], []⟩ := by
    simp [processOne, va, ha]
  have s2 : processOne cfg ⟨cur ++ ["a"], ["a"], [], []⟩ "b" =
      ⟨cur ++ ["a", "b"], ["a", "b"], [], []⟩ := by
    simp [processOne, vb, List.mem_append, hb, hba]
  have s3 : processOne cfg ⟨cur ++ ["a", "b"], ["a", "b"], [], []⟩ "a" =
      ⟨cur ++ ["a", "b"], ["a", "b"], ["a"], []⟩ := by
    simp [processOne, va, List.mem_append]
  unfold processItems
  simp only [List.foldl_cons, List.foldl_nil]
  rw [s1, s2, s3]

lemma decodeItems_map (xs : List String) : decodeItems (xs.map Json.str) = some xs := by
  induction xs with
  | nil => rfl
  | cons a rest ih => simp [decodeItems, ih]

lemma decodeLists_encode (c : Lists) :
    decodeLists (c.map (fun p => (p.1, Json.arr (p.2.map Json.str)))) = some c := by
  induction c with
  | nil => rfl
  | cons p rest ih =>
    cases p with
    | mk k items => simp [decodeLists, decodeItems_map, ih]


/-- C1 (amended): each mutating operation either leaves the in-memory
collection unchanged (a rejection) or applies exactly its full intended
change; and the resulting in-memory collection never depends on whether
the persistence write succeeds, so a failed write keeps the already
applied change rather than rolling it back. -/
theorem mutators_apply_fully_or_reject (cfg : Config) (sOk : Bool) (l : Lists) (n x : String) :
    ((create_list cfg sOk l n).1 = l ∨
      (create_list cfg sOk l n).1 = l ++ [(pyStrip n, [])]) ∧
    ((add_item cfg sOk l n x).1 = l ∨ ∃ k, find_list_name l n = some k ∧
      (add_item cfg sOk l n x).1 = setItems l k (getItems l k ++ [pyStrip x])) ∧
    ((add_multiple_items cfg sOk l n x).1 = l ∨ ∃ k, find_list_name l n = some k ∧
      (add_multiple_items cfg sOk l n x).1 =
        setItems l k (processItems cfg (getItems l k) (splitItems x)).cur) ∧
    ((remove_item cfg sOk l n x).1 = l ∨ ∃ k, find_list_name l n = some k ∧
      (remove_item cfg sOk l n x).1 = setItems l k ((getItems l k).erase (pyStrip x))) ∧
    ((delete_list cfg sOk l n).1 = l ∨ ∃ k, find_list_name l n = some k ∧
      (delete_list cfg sOk l n).1 = l.filter (fun p => p.1 != k)) ∧
    (create_list cfg false l n).1 = (create_list cfg true l n).1 ∧
    (add_item cfg false l n x).1 = (add_item cfg true l n x).1 ∧
    (add_multiple_items cfg false l n x).1 = (add_multiple_items cfg true l n x).1 ∧
    (remove_item cfg false l n x).1 = (remove_item cfg true l n x).1 ∧
    (delete_list cfg false l n).1 = (delete_list cfg true l n).1 := by
  refine ⟨?_, ?_, ?_, ?_, ?_,
    create_list_save_indep cfg false true l n,
    add_item_save_indep cfg false true l n x,
    add_multiple_items_save_indep cfg false true l n x,
    remove_item_save_indep cfg false true l n x,
    delete_list_save_indep cfg false true l n⟩
  · rcases create_list_state cfg sOk l n with h | ⟨_, _, _, h⟩
    · exact Or.inl h
    · exact Or.inr h
  · rcases add_item_state cfg sOk l n x with h | ⟨k, hf, _, _, _, h⟩
    · exact Or.inl h
    · exact Or.inr ⟨k, hf, h⟩
  · rcases add_multiple_items_state cfg sOk l n x with h | ⟨k, hf, h⟩
    · exact Or.inl h
    · exact Or.inr ⟨k, hf, h⟩
  · rcases remove_item_state cfg sOk l n x with h | ⟨k, hf, _, h⟩
    · exact Or.inl h
    · exact Or.inr ⟨k, hf, h⟩
  · rcases delete_list_state cfg sOk l n with h | ⟨k, hf, h⟩
    · exact Or.inl h
    · exact Or.inr ⟨k, hf, h⟩

/-- C1 (counterexample to the claim as stated): with the persistence write
failing, `add_item` on an existing list still appends the item in memory —
the collection after the call differs from the collection before it, while
the caller is handed the generic failure string. -/
theorem save_failure_keeps_change :
    (add_item defaultConfig false [("g", [])] "g" "milk").1 = [("g", ["milk"])] ∧
    (add_item defaultConfig false [("g", [])] "g" "milk").1 ≠ [("g", [])] ∧
    (add_item defaultConfig false [("g", [])] "g" "milk").2 =
      "❌ An error occurred while adding the item" := by
  refine ⟨by decide, by decide, by decide⟩

/-- C3 (amended): load only checks that the parsed content is a mapping —
any non-mapping parse result is logged as invalid and replaced by the
empty collection, while any mapping is adopted as the in-memory value
even when its values are not sequences of strings. -/
theorem load_mapping_check (copyOk : Bool) (df ts : String) (d : Json)
    (hno : ∀ entries, d ≠ Json.obj entries) :
    load_data (.parsed d) copyOk df ts = ⟨[], true, none, false⟩ ∧
    ∀ entries, load_data (.parsed (.obj entries)) copyOk df ts =
      ⟨entries, false, none, false⟩ := by
  constructor
  · cases d with
    | obj entries => exact absurd rfl (hno entries)
    | null => rfl
    | bool b => rfl
    | num i => rfl
    | str v => rfl
    | arr xs => rfl
  · intro entries
    rfl

/-- C3 (witness): a parsed top-level array is rejected with a warning and
an empty collection. -/
theorem load_mapping_check_witness :
    load_data (.parsed (.arr [])) true "f" "ts" = ⟨[], true, none, false⟩ :=
  (load_mapping_check true "f" "ts" (.arr []) (fun _ h => Json.noConfusion h)).1

/-- C3 (counterexample to the claim as stated): a parsed mapping whose
value is a number is adopted as the collection — no warning, no reset to
empty. -/
theorem load_adopts_wrong_values :
    (load_data (.parsed (.obj [("a", Json.num 3)])) true "f" "ts").lists =
      [("a", Json.num 3)] ∧
    (load_data (.parsed (.obj [("a", Json.num 3)])) true "f" "ts").warned_invalid = false :=
  ⟨rfl, rfl⟩

/-- C4 (amended): every public operation except `get_stats` hands the
caller a result string (for every collection, input and persistence
outcome — no exception crosses the public boundary), while `get_stats`
returns the statistics dictionary rather than a string. -/
theorem api_returns_text (cfg : Config) (sOk : Bool) (l : Lists) (c : ApiCall)
    (h : c ≠ ApiCall.getStats) : ((api_call cfg sOk l c).2).isText = true := by
  cases c with
  | getStats => exact absurd rfl h
  | createList n => rfl
  | addItem n x => rfl
  | addMultipleItems n t => rfl
  | removeItem n x => rfl
  | showList n => rfl
  | showAllLists => rfl
  | deleteList n => rfl
  | searchItem t => rfl

/-- C4 (witness): `show_all_lists` on the empty collection returns a
string. -/
theorem api_returns_text_witness :
    ((api_call defaultConfig true [] ApiCall.showAllLists).2).isText = true :=
  api_returns_text defaultConfig true [] ApiCall.showAllLists (fun h => ApiCall.noConfusion h)

/-- C4 (counterexample to the claim as stated): `get_stats` does not
return a string — its result is the statistics dictionary. -/
theorem get_stats_not_text :
    ((api_call defaultConfig true [] ApiCall.getStats).2).isText = false := rfl

/-- C5: on unparseable storage content, load attempts exactly one backup
copy to the timestamped sidecar path and returns the empty collection;
a failed copy changes only the logged outcome, never the loaded
collection, so load always succeeds. -/
theorem load_corruption_recovery (copyOk : Bool) (df ts : String) :
    (load_data .malformed copyOk df ts).lists = [] ∧
    (load_data .malformed copyOk df ts).backup_path = some (df ++ ".backup_" ++ ts) ∧
    (load_data .malformed copyOk df ts).backup_ok = copyOk :=
  ⟨rfl, rfl, rfl⟩

/-- C8: saving a collection and loading the stored value back with a fresh
instance reproduces an equal collection — the same keys with the same
ordered item sequences. -/
theorem save_load_roundtrip (c : Lists) (copyOk : Bool) (df ts : String) :
    decodeLists ((load_data (.parsed (save_data_content c)) copyOk df ts).lists) = some c :=
  decodeLists_encode c


/-- C2 (amended): the shared resolution scan compares lowercased forms of
the stored keys against the lowercased — but not trimmed — input: a
returned key is a stored key whose lowercased form equals the lowercased
raw input, resolution fails exactly when no stored key lowercases to the
raw input's lowercased form, and on failure add_item (with a valid item),
add_multiple_items, remove_item, show_list and delete_list all report
list-not-found and leave the collection unchanged. -/
theorem resolution_spec (cfg : Config) (sOk : Bool) (l : Lists) (n x : String) :
    (∀ k, find_list_name l n = some k →
      ∃ its, (k, its) ∈ l ∧ pyLower k = pyLower n) ∧
    (find_list_name l n = none ↔ ∀ p ∈ l, pyLower p.1 ≠ pyLower n) ∧
    (find_list_name l n = none →
      remove_item cfg sOk l n x = (l, Messages.LIST_NOT_FOUND n) ∧
      delete_list cfg sOk l n = (l, Messages.LIST_NOT_FOUND n) ∧
      show_list l n = Messages.LIST_NOT_FOUND n ∧
      add_multiple_items cfg sOk l n x = (l, Messages.LIST_NOT_FOUND n) ∧
      (validate_item cfg x = .ok () →
        add_item cfg sOk l n x = (l, Messages.LIST_NOT_FOUND n))) := by
  refine ⟨fun k hk => find_list_name_some hk, find_list_name_none, fun hnone => ?_⟩
  refine ⟨?_, ?_, ?_, ?_, ?_⟩
  · unfold remove_item
    rw [hnone]
    rfl
  · unfold delete_list
    rw [hnone]
    rfl
  · unfold show_list
    rw [hnone]
    rfl
  · unfold add_multiple_items
    rw [hnone]
    rfl
  · intro hval
    unfold add_item
    rw [hval, hnone]
    rfl

/-- C2 (witness): on a collection holding only the list "g", the name "x"
does not resolve and `remove_item` reports list-not-found with the
collection unchanged. -/
theorem resolution_spec_witness :
    remove_item defaultConfig true [("g", [])] "x" "y" =
      ([("g", [])], Messages.LIST_NOT_FOUND "x") :=
  ((resolution_spec defaultConfig true [("g", [])] "x" "y").2.2 (by decide)).1

/-- C2 (counterexample to the claim as stated): the stored list
"groceries" is not resolved by the name " groceries" carrying surrounding
whitespace — resolution does not trim its input, so `add_item` reports
list-not-found instead of resolving the list. -/
theorem resolution_no_trim :
    find_list_name [("groceries", [])] " groceries" = none ∧
    (add_item defaultConfig true [("groceries", [])] " groceries" "milk").1 =
      [("groceries", [])] ∧
    (add_item defaultConfig true [("groceries", [])] " groceries" "milk").2 =
      Messages.LIST_NOT_FOUND " groceries" := by
  refine ⟨by decide, by decide, by decide⟩

/-- C9: each mutating operation touches at most its target list: create
keeps every existing entry, add/remove/add-many/delete keep every entry
whose key is not the resolved key, and add/remove/add-many keep the key
sequence unchanged. -/
theorem mutators_frame (cfg : Config) (sOk : Bool) (l : Lists) (n x : String) :
    (∀ p ∈ l, p ∈ (create_list cfg sOk l n).1) ∧
    (∀ p ∈ l, (∀ k, find_list_name l n = some k → p.1 ≠ k) →
      p ∈ (add_item cfg sOk l n x).1 ∧ p ∈ (remove_item cfg sOk l n x).1 ∧
      p ∈ (add_multiple_items cfg sOk l n x).1 ∧ p ∈ (delete_list cfg sOk l n).1) ∧
    (add_item cfg sOk l n x).1.map Prod.fst = l.map Prod.fst ∧
    (remove_item cfg sOk l n x).1.map Prod.fst = l.map Prod.fst ∧
    (add_multiple_items cfg sOk l n x).1.map Prod.fst = l.map Prod.fst := by
  refine ⟨?_, ?_, ?_, ?_, ?_⟩
  · intro p hp
    rcases create_list_state cfg sOk l n with h | ⟨_, _, _, h⟩
    · rw [h]; exact hp
    · rw [h]; exact List.mem_append_left _ hp
  · intro p hp hne
    refine ⟨?_, ?_, ?_, ?_⟩
    · rcases add_item_state cfg sOk l n x with h | ⟨k, hf, _, _, _, h⟩
      · rw [h]; exact hp
      · rw [h]; exact mem_setItems_of_ne hp (hne k hf)
    · rcases remove_item_state cfg sOk l n x with h | ⟨k, hf, _, h⟩
      · rw [h]; exact hp
      · rw [h]; exact mem_setItems_of_ne hp (hne k hf)
    · rcases add_multiple_items_state cfg sOk l n x with h | ⟨k, hf, h⟩
      · rw [h]; exact hp
      · rw [h]; exact mem_setItems_of_ne hp (hne k hf)
    · rcases delete_list_state cfg sOk l n with h | ⟨k, hf, h⟩
      · rw [h]; exact hp
      · rw [h]
        refine List.mem_filter.mpr ⟨hp, ?_⟩
        simpa using hne k hf
  · rcases add_item_state cfg sOk l n x with h | ⟨k, _, _, _, _, h⟩
    · rw [h]
    · rw [h]; exact setItems_keys l k _
  · rcases remove_item_state cfg sOk l n x with h | ⟨k, _, _, h⟩
    · rw [h]
    · rw [h]; exact setItems_keys l k _
  · rcases add_multiple_items_state cfg sOk l n x with h | ⟨k, _, h⟩
    · rw [h]
    · rw [h]; exact setItems_keys l k _

/-- C9 (witness): adding to list "g" keeps the untouched entry of list "h"
and keeps the key sequence. -/
theorem mutators_frame_witness :
    ("h", ["k"]) ∈ (add_item defaultConfig true [("g", ["m"]), ("h", ["k"])] "g" "z").1 ∧
    (remove_item defaultConfig true [("g", ["m"]), ("h", ["k"])] "g" "z").1.map Prod.fst =
      ["g", "h"] := by
  have hne : ∀ k, find_list_name [("g", ["m"]), ("h", ["k"])] "g" = some k →
      ("h", ["k"]).1 ≠ k := by
    intro k hk
    have hg : find_list_name [("g", ["m"]), ("h", ["k"])] "g" = some "g" := by decide
    rw [hg] at hk
    cases hk
    decide
  have T := mutators_frame defaultConfig true [("g", ["m"]), ("h", ["k"])] "g" "z"
  refine ⟨(T.2.1 ("h", ["k"]) (by decide) hne).1, T.2.2.2.1.trans (by decide)⟩


/-- C10: in every reachable state, for an existing list and an item
argument that is empty or whitespace-only, `remove_item` reports the
item-not-found message (formatted with the stripped, empty item) and
leaves the collection unchanged — no stored item is empty, so the stripped
argument can never match. -/
theorem remove_blank_item_not_found (cfg : Config) (sOk : Bool) (l : Lists) (n w k : String)
    (hreach : Reachable cfg l) (hfind : find_list_name l n = some k)
    (hw : pyStrip w = "") :
    remove_item cfg sOk l n w = (l, Messages.ITEM_NOT_FOUND "" k) := by
  have hinv := reachable_inv hreach
  have hnot : ("" : String) ∉ getItems l k := by
    intro hc
    obtain ⟨p, hp, hip⟩ := getItems_mem hc
    exact hinv.2.2 p hp "" hip rfl
  unfold remove_item
  rw [hfind]
  simp only [hw]
  rw [if_pos hnot]
  rfl

/-- C10 (witness): the state holding list "g" with item "milk" is
reachable, and removing the whitespace-only item " " from it returns the
item-not-found message with the collection unchanged. -/
theorem remove_blank_item_witness :
    remove_item defaultConfig true [("g", ["milk"])] "g" " " =
      ([("g", ["milk"])], Messages.ITEM_NOT_FOUND "" "g") := by
  have h1 : (create_list defaultConfig true [] "g").1 = [("g", [])] := by decide
  have r1 : Reachable defaultConfig (create_list defaultConfig true [] "g").1 :=
    Reachable.create_step true "g" Reachable.empty
  rw [h1] at r1
  have h2 : (add_item defaultConfig true [("g", [])] "g" "milk").1 = [("g", ["milk"])] := by
    decide
  have r2 : Reachable defaultConfig (add_item defaultConfig true [("g", [])] "g" "milk").1 :=
    Reachable.add_step true "g" "milk" r1
  rw [h2] at r2
  exact remove_blank_item_not_found defaultConfig true [("g", ["milk"])] "g" " " "g" r2
    (by decide) (by decide)

/-- C6 (amended): in every reachable state at most one entry
case-insensitively matches any candidate name; and calling create_list
twice with valid, case-insensitively equal names, while the collection
stays strictly below the list cap, rejects the second call with the
already-exists message and leaves its state unchanged — across the two
calls the collection grows by at most one entry.  (At the cap the second
call is rejected with the limit message instead, and with an invalid name
with a validation message — still never a second insertion.) -/
theorem create_twice_rejected (cfg : Config) (sOk1 sOk2 : Bool) (l : Lists) (n m : String)
    (hreach : Reachable cfg l)
    (hlow : pyLower (pyStrip m) = pyLower (pyStrip n))
    (hvn : validate_list_name cfg n = .ok ())
    (hvm : validate_list_name cfg m = .ok ())
    (hcap : l.length + 1 < cfg.max_lists_per_user) :
    (∀ c : String, (l.filter (fun p => pyLower p.1 == pyLower c)).length ≤ 1) ∧
    create_list cfg sOk2 (create_list cfg sOk1 l n).1 m =
      ((create_list cfg sOk1 l n).1, Messages.LIST_EXISTS (pyStrip m)) ∧
    (create_list cfg sOk1 l n).1.length ≤ l.length + 1 ∧
    (create_list cfg sOk2 (create_list cfg sOk1 l n).1 m).1.length ≤ l.length + 1 := by
  obtain ⟨hkeys, hcase, hitems⟩ := reachable_inv hreach
  have hinv1 : Inv (create_list cfg sOk1 l n).1 := inv_create cfg sOk1 n ⟨hkeys, hcase, hitems⟩
  have hcapn : l.length < cfg.max_lists_per_user := by omega
  refine ⟨caseUnique_filter_le_one hcase, ?_⟩
  rcases create_list_below_cap cfg sOk1 l n hvn hcapn with ⟨ht, heq⟩ | ⟨ht, heq⟩
  · have hst : (create_list cfg sOk1 l n).1 = l := by rw [heq]
    have htm : pyTruthyStr (find_list_name (create_list cfg sOk1 l n).1 (pyStrip m)) = true := by
      rw [hst, find_list_name_ext hlow]
      exact ht
    rcases create_list_below_cap cfg sOk2 (create_list cfg sOk1 l n).1 m hvm
        (by rw [hst]; exact hcapn) with ⟨ht2, heq2⟩ | ⟨ht2, heq2⟩
    · refine ⟨heq2, by rw [hst]; omega, ?_⟩
      rw [heq2]
      rw [hst]
      omega
    · exact absurd ht2 (by simp [htm])
  · have hst : (create_list cfg sOk1 l n).1 = l ++ [(pyStrip n, [])] := heq
    have hnone : find_list_name l (pyStrip n) = none := find_eq_none_of_truthy_false hkeys ht
    have hfind1 : find_list_name (create_list cfg sOk1 l n).1 (pyStrip n) = some (pyStrip n) := by
      rw [hst]
      exact find_list_name_append_fresh (pyStrip n) hnone rfl
    have hfind1m : find_list_name (create_list cfg sOk1 l n).1 (pyStrip m) = some (pyStrip n) := by
      rw [find_list_name_ext hlow]
      exact hfind1
    have htm : pyTruthyStr (find_list_name (create_list cfg sOk1 l n).1 (pyStrip m)) = true :=
      truthy_of_find_some hinv1.1 hfind1m
    have hlen1 : (create_list cfg sOk1 l n).1.length = l.length + 1 := by
      rw [hst]
      simp
    rcases create_list_below_cap cfg sOk2 (create_list cfg sOk1 l n).1 m hvm (by omega)
        with ⟨ht2, heq2⟩ | ⟨ht2, heq2⟩
    · refine ⟨heq2, by omega, ?_⟩
      rw [heq2]
      simpa using by omega
    · exact absurd ht2 (by simp [htm])

/-- C6 (witness): after creating "Milk" in the empty collection, creating
"milk" is rejected with the already-exists message and no state change. -/
theorem create_twice_rejected_witness :
    create_list defaultConfig true (create_list defaultConfig true [] "Milk").1 "milk" =
      ((create_list defaultConfig true [] "Milk").1, Messages.LIST_EXISTS "milk") := by
  have h := create_twice_rejected defaultConfig true true [] "Milk" "milk" Reachable.empty
    (by decide) (by decide) (by decide) (by decide)
  have hs : pyStrip "milk" = "milk" := by decide
  rw [hs] at h
  exact h.2.1

/-- C6 (counterexample to the claim as stated): creating twice with the
empty name yields a validation rejection, not already-exists; and at the
list cap (a config with max one list) the second create of the same name
is rejected with the limit message, not already-exists. -/
theorem create_twice_not_always_exists :
    ((create_list defaultConfig true (create_list defaultConfig true [] "").1 "").2 =
      "List name cannot be empty" ∧
     (create_list defaultConfig true (create_list defaultConfig true [] "").1 "").2 ≠
      Messages.LIST_EXISTS "") ∧
    (let cfg1 : Config := { defaultConfig with max_lists_per_user := 1 }
     (create_list cfg1 true (create_list cfg1 true [] "a").1 "a").2 =
        Messages.TOO_MANY_LISTS 1 ∧
     (create_list cfg1 true (create_list cfg1 true [] "a").1 "a").2 ≠
        Messages.LIST_EXISTS "a") := by
  refine ⟨⟨by decide, by decide⟩, by decide, by decide⟩

/-- C7: `add_multiple_items` splits on commas, strips and drops empty
pieces; under the capacity pre-check each candidate is validated and
deduplicated against the list content including items added earlier in
the same call: for "a, b, a" it appends "a" and "b" once each, reports
the second "a" as skipped, grows the list by exactly two, and (when the
write succeeds) reports the added and skipped sections. -/
theorem add_many_comma_batch (cfg : Config) (sOk : Bool) (l : Lists) (n k t : String)
    (hfind : find_list_name l n = some k)
    (ha : "a" ∉ getItems l k) (hb : "b" ∉ getItems l k)
    (hlen : 1 ≤ cfg.max_item_length)
    (hcap : (getItems l k).length + 3 ≤ cfg.max_items_per_list) :
    splitItems "a, b, a" = ["a", "b", "a"] ∧
    (∀ piece ∈ splitItems t, piece ≠ "") ∧
    processItems cfg (getItems l k) ["a", "b", "a"] =
      ⟨getItems l k ++ ["a", "b"], ["a", "b"], ["a"], []⟩ ∧
    (add_multiple_items cfg sOk l n "a, b, a").1 =
      setItems l k (getItems l k ++ ["a", "b"]) ∧
    getItems (add_multiple_items cfg sOk l n "a, b, a").1 k =
      getItems l k ++ ["a", "b"] ∧
    (getItems (add_multiple_items cfg sOk l n "a, b, a").1 k).length =
      (getItems l k).length + 2 ∧
    (sOk = true → (add_multiple_items cfg sOk l n "a, b, a").2 =
      add_many_message k ["a", "b"] ["a"] []) := by
  have hsplit : splitItems "a, b, a" = ["a", "b", "a"] := by decide
  have hproc := processItems_aba cfg (getItems l k) hlen ha hb
  have heval : add_multiple_items cfg sOk l n "a, b, a" =
      (setItems l k (getItems l k ++ ["a", "b"]),
       match save_data sOk with
       | .error e => add_many_catch e
       | .ok _ => add_many_message k ["a", "b"] ["a"] []) := by
    unfold add_multiple_items
    rw [hfind]
    simp only [hsplit]
    rw [if_neg (show ¬ cfg.max_items_per_list <
        (getItems l k).length + (["a", "b", "a"] : List String).length from by
      simpa using Nat.not_lt.mpr hcap)]
    simp only [hproc]
    cases save_data sOk <;> rfl
  have hstate : (add_multiple_items cfg sOk l n "a, b, a").1 =
      setItems l k (getItems l k ++ ["a", "b"]) := by rw [heval]
  have hget : getItems (add_multiple_items cfg sOk l n "a, b, a").1 k =
      getItems l k ++ ["a", "b"] := by
    rw [hstate]
    obtain ⟨its, hmem, _⟩ := find_list_name_some hfind
    exact getItems_setItems _ ⟨its, hmem⟩
  refine ⟨hsplit, fun piece hp => splitItems_mem_ne hp, hproc, hstate, hget, ?_, ?_⟩
  · rw [hget]
    simp
  · intro hsOk
    rw [heval, hsOk]
    rfl

/-- C7 (witness): on the fresh list "g", adding "a, b, a" yields exactly
["a", "b"]. -/
theorem add_many_comma_batch_witness :
    getItems (add_multiple_items defaultConfig true [("g", [])] "g" "a, b, a").1 "g" =
      ["a", "b"] := by
  have h := add_many_comma_batch defaultConfig true [("g", [])] "g" "g" "x"
    (by decide) (by decide) (by decide) (by decide) (by decide)
  have hg : getItems [("g", [])] "g" = [] := by decide
  have := h.2.2.2.2.1
  rw [hg] at this
  simpa using this


end ListBot
